import Mathlib

/-!
Verification of the `tiny-idb-helper` key-value storage layer
(`src/tiny-idb-helper.js`, "Simplified Version").

The library is a Promise-based key-value store over IndexedDB with a
silent fallback to an in-memory `Map`.  We give a shallow embedding of
its state and operations:

* JavaScript values are modelled by the inductive type `JSValue`
  (JS numbers are modelled as integers; every numeric instance in the
  verified properties is integral).  A structure that JSON cannot
  represent — e.g. one containing a circular reference — is modelled by
  the constructor `JSValue.circular`, on which the serializer fails.
* `JSON.stringify` (an external collaborator from the JS runtime) is
  modelled by `stringify : JSValue → Option String`, returning `none`
  exactly when JS would throw a `TypeError`.
* The IndexedDB world is a name-indexed family of databases, each a
  string-keyed association list of stored strings.  A stored string is
  either the reserved undefined marker, the JSON serialization of a
  value, or a corrupt string put there by a writer outside the library.
* Asynchronous operations are embedded as state-passing functions
  returning `Except Err _`; `throw`/`reject` becomes `Except.error`.
  The single-threaded init gate (`_initializeGate`) is additionally given a
  small event-trace semantics to reason about concurrent first calls.
-/

namespace TinyIDB

/-- The reserved marker string the library stores in place of `undefined`
(`'__TINY_IDB_UNDEFINED__'` in `setItem`/`getItem`/`values`). -/
def undefinedMarker : String := "__TINY_IDB_UNDEFINED__"

/-- JavaScript values, as far as the library observes them.  Numbers are
modelled as integers.  `circular` stands for any structure that
`JSON.stringify` rejects (a cyclic object graph). -/
inductive JSValue where
  | undef
  | null
  | bool (b : Bool)
  | num (n : Int)
  | str (s : String)
  | arr (elems : List JSValue)
  | obj (fields : List (String × JSValue))
  | circular
deriving Repr

/-- The JS strict comparison `value === undefined`. -/
def JSValue.isUndef : JSValue → Bool
  | .undef => true
  | _ => false

/-- The JS strict comparison `value === null`. -/
def JSValue.isNull : JSValue → Bool
  | .null => true
  | _ => false

/-- The JS test `typeof amount === 'number'`. -/
def JSValue.isNum : JSValue → Bool
  | .num _ => true
  | _ => false

/-- The decimal digit character for `n < 10`. -/
def digitChar (n : Nat) : Char := Char.ofNat (48 + n)

/-- Decimal digits of `n`, most significant first, with explicit fuel
(the fuel `n + 1` always suffices). -/
def natDigitsAux : Nat → Nat → List Char
  | 0, _ => []
  | fuel + 1, n =>
    if n < 10 then [digitChar n]
    else natDigitsAux fuel (n / 10) ++ [digitChar (n % 10)]

/-- Decimal representation of a natural number (model of JS number
printing, restricted to naturals). -/
def natToString (n : Nat) : String := String.mk (natDigitsAux (n + 1) n)

/-- Decimal representation of an integer. -/
def intToString : Int → String
  | .ofNat m => natToString m
  | .negSucc m => "-" ++ natToString (m + 1)

/-- Escape of a single character inside a JSON string literal.
Control characters other than the common ones are left as-is; no
verified property depends on the exact escape table. -/
def escapeChar (c : Char) : List Char :=
  if c = '"' then ['\\', '"']
  else if c = '\\' then ['\\', '\\']
  else if c = '\n' then ['\\', 'n']
  else if c = '\t' then ['\\', 't']
  else if c = '\r' then ['\\', 'r']
  else [c]

/-- JSON string literal for `s`: surrounding quotes plus escapes. -/
def jsonQuote (s : String) : String :=
  "\"" ++ String.mk (List.flatten (s.data.map escapeChar)) ++ "\""

mutual

/-- Model of `JSON.stringify`.  `none` means JS throws a `TypeError`
(value contains a circular reference).  `stringify .undef = none`
records that `JSON.stringify(undefined)` produces no string; both call
sites in the library test for `undefined` before serializing, so this
case is unreachable there. -/
def stringify : JSValue → Option String
  | .undef => none
  | .null => some "null"
  | .bool true => some "true"
  | .bool false => some "false"
  | .num n => some (intToString n)
  | .str s => some (jsonQuote s)
  | .arr elems =>
    match stringifyElems elems with
    | none => none
    | some parts => some ("[" ++ String.intercalate "," parts ++ "]")
  | .obj fields =>
    match stringifyFields fields with
    | none => none
    | some parts => some ("\x7b" ++ String.intercalate "," parts ++ "\x7d")
  | .circular => none

/-- Array elements: `undefined` serializes as `null` inside an array. -/
def stringifyElems : List JSValue → Option (List String)
  | [] => some []
  | v :: rest =>
    match (match v with | .undef => some "null" | _ => stringify v) with
    | none => none
    | some s =>
      match stringifyElems rest with
      | none => none
      | some ss => some (s :: ss)

/-- Object fields: a field whose value is `undefined` is dropped. -/
def stringifyFields : List (String × JSValue) → Option (List String)
  | [] => some []
  | (k, v) :: rest =>
    match v with
    | .undef => stringifyFields rest
    | _ =>
      match stringify v with
      | none => none
      | some s =>
        match stringifyFields rest with
        | none => none
        | some ss => some ((jsonQuote k ++ ":" ++ s) :: ss)

end

/-- A string held in an IndexedDB object store.  The library itself only
ever writes the undefined marker or `JSON.stringify` output; `corrupt`
models a stored string that is not valid JSON (so `JSON.parse` throws),
which can only be put there by a writer outside the library. -/
inductive StoredString where
  | marker
  | json (v : JSValue)
  | corrupt (s : String)
deriving Repr

/-- The character content of a stored string.  `json v` carries the
value it serializes; its text is `stringify v` (the `getD` default is
irrelevant: `json v` is only ever built after `stringify v` succeeded). -/
def StoredString.asString : StoredString → String
  | .marker => undefinedMarker
  | .json v => (stringify v).getD ""
  | .corrupt s => s

/-- Association-list lookup (model of `Map.get` / IndexedDB `get`). -/
def alGet {α : Type} : List (String × α) → String → Option α
  | [], _ => none
  | (k, v) :: rest, key => if k = key then some v else alGet rest key

/-- Association-list insert-or-replace (model of `Map.set` / `put`). -/
def alInsert {α : Type} : List (String × α) → String → α → List (String × α)
  | [], key, val => [(key, val)]
  | (k, v) :: rest, key, val =>
    if k = key then (k, val) :: rest else (k, v) :: alInsert rest key val

/-- Association-list deletion (model of `Map.delete` / `delete`).  It
removes every binding of the key; in any reachable map keys are unique,
so this coincides with deleting the single binding. -/
def alErase {α : Type} (m : List (String × α)) (key : String) : List (String × α) :=
  m.filter (fun p => p.1 != key)

/-- One IndexedDB database: the single `'storage'` object store, keyed
by string, holding serialized strings. -/
abbrev Database : Type := List (String × StoredString)

/-- The IndexedDB environment: a family of databases indexed by name.
Opening a name that was never written yields an empty database. -/
abbrev World : Type := List (String × Database)

/-- Contents of the database named `name` (empty if never written). -/
def worldGet (w : World) (name : String) : Database :=
  (alGet w name).getD []

/-- Store `raw` under `key` in the database named `name`. -/
def worldPut (w : World) (name key : String) (raw : StoredString) : World :=
  alInsert w name (alInsert (worldGet w name) key raw)

/-- Delete `key` from the database named `name`. -/
def worldDelete (w : World) (name key : String) : World :=
  alInsert w name (alErase (worldGet w name) key)

/-- Errors the library throws or rejects with.  The coded errors carry
`ERROR_CODES` discriminants; the first four model plain `Error` throws
from argument validation. -/
inductive Err where
  | keyNotString          -- 'Key must be a string'
  | invalidConfiguration  -- 'Invalid configuration: dbName must be string'
  | amountNotNumber       -- 'Increment amount must be a number'
  | dataNotObject         -- 'Data must be an object'
  | jsonParseError        -- ERROR_CODES.JSON_PARSE_ERROR (stringify and parse failures)
  | transactionFailure    -- ERROR_CODES.TRANSACTION_FAILURE
  | openFailure           -- ERROR_CODES.OPEN_FAILURE
deriving Repr, DecidableEq

/-- The runtime environment probed during initialization:
whether `window.indexedDB` exists, and whether `indexedDB.open`
succeeds when attempted. -/
structure Env where
  indexedDBAvailable : Bool
  openSucceeds : Bool
deriving Repr, DecidableEq

/-- The helper's configuration (`this.config`). -/
structure Config where
  dbName : String
deriving Repr, DecidableEq

/-- The singleton helper's instance state.  `db` is the open handle,
identified by the name of the database it refers to; `initPromise`
holds the identity of the in-flight (or settled) initialization
promise. -/
structure Store where
  config : Config
  db : Option String
  useMemoryFallback : Bool
  memoryStore : List (String × JSValue)
  isInitialized : Bool
  initPromise : Option Nat
deriving Repr

/-- A store with configuration `cfg` and every piece of derived state
reset: no open handle, no fallback, empty memory map, uninitialized,
no pending init promise. -/
def freshStore (cfg : Config) : Store :=
  { config := cfg
    db := none
    useMemoryFallback := false
    memoryStore := []
    isInitialized := false
    initPromise := none }

/-- The state of a freshly constructed helper (the constructor). -/
def initialStore : Store := freshStore { dbName := "app-db" }

/-- Model of `configure({ dbName })`: validate that the (destructured) `dbName`
is a string, else throw; then reset all cached state — close the open
handle, clear the memory store, reset the initialized flag and the
in-flight init promise.  Callers that omit the option pass the default
`.str "app-db"`, matching the destructuring default. -/
def configure (_s : Store) (dbName : JSValue) : Except Err Store :=
  match dbName with
  | .str n => .ok (freshStore { dbName := n })
  | _ => .error .invalidConfiguration

/-- Model of `_doInitialize`: if IndexedDB is unavailable, or opening it fails,
fall back silently to memory; otherwise keep the opened handle.  Either
way the store ends up initialized; no error escapes (the `catch` block
swallows the open failure). -/
def _doInitialize (env : Env) (s : Store) : Store :=
  if !env.indexedDBAvailable then
    { s with useMemoryFallback := true, isInitialized := true }
  else if env.openSucceeds then
    { s with db := some s.config.dbName, isInitialized := true }
  else
    { s with useMemoryFallback := true, isInitialized := true }

/-- Model of `_initialize` (the ensure-ready gate), as observed by one operation run to completion: if
already initialized, return at once; if an init promise exists, await
it (in the sequential semantics such a promise is already settled, so
the state is unchanged); otherwise create the promise and run
`_doInitialize`. -/
def _initializeGate (env : Env) (s : Store) : Store :=
  if s.isInitialized then s
  else if s.initPromise.isSome then s
  else _doInitialize env { s with initPromise := some 0 }

/-- Model of `getItem(key)`: validate the key, initialize, then read.  In memory
mode a present key returns its stored value (possibly `undefined`) and
an absent key returns `null`.  In IndexedDB mode an absent key returns
`null`; the marker decodes to `undefined`; other stored strings are
`JSON.parse`d, rejecting with `JSON_PARSE_ERROR` on corrupt data.
A `db = none` handle in IndexedDB mode is unreachable after
initialization; it is mapped to a transaction failure. -/
def getItem (env : Env) (w : World) (s0 : Store) (key : JSValue) :
    Except Err (Store × JSValue) :=
  match key with
  | .str k =>
    let s := _initializeGate env s0
    if s.useMemoryFallback then
      match alGet s.memoryStore k with
      | some v => .ok (s, v)
      | none => .ok (s, .null)
    else
      match s.db with
      | none => .error .transactionFailure
      | some dbn =>
        match alGet (worldGet w dbn) k with
        | none => .ok (s, .null)
        | some raw =>
          if raw.asString = undefinedMarker then .ok (s, .undef)
          else
            match raw with
            | .json v => .ok (s, v)
            | _ => .error .jsonParseError
  | _ => .error .keyNotString

/-- Model of `setItem(key, value)`: validate the key, initialize, then write.
In memory mode the value is first run through `JSON.stringify` (unless
it is `undefined`) purely to detect circular references, then stored as
the logical value.  In IndexedDB mode `undefined` is stored as the
reserved marker and every other value as its JSON serialization; a
serialization failure rejects before `put` is ever called. -/
def setItem (env : Env) (w : World) (s0 : Store) (key value : JSValue) :
    Except Err (World × Store) :=
  match key with
  | .str k =>
    let s := _initializeGate env s0
    if s.useMemoryFallback then
      if value.isUndef then
        .ok (w, { s with memoryStore := alInsert s.memoryStore k value })
      else
        match stringify value with
        | none => .error .jsonParseError
        | some _ => .ok (w, { s with memoryStore := alInsert s.memoryStore k value })
    else
      match s.db with
      | none => .error .transactionFailure
      | some dbn =>
        if value.isUndef then
          .ok (worldPut w dbn k .marker, s)
        else
          match stringify value with
          | none => .error .jsonParseError
          | some _ => .ok (worldPut w dbn k (.json value), s)
  | _ => .error .keyNotString

/-- Model of `removeItem(key)`: validate, initialize, delete the key from the
active backend (no error if the key is absent). -/
def removeItem (env : Env) (w : World) (s0 : Store) (key : JSValue) :
    Except Err (World × Store) :=
  match key with
  | .str k =>
    let s := _initializeGate env s0
    if s.useMemoryFallback then
      .ok (w, { s with memoryStore := alErase s.memoryStore k })
    else
      match s.db with
      | none => .error .transactionFailure
      | some dbn => .ok (worldDelete w dbn k, s)
  | _ => .error .keyNotString

/-- Model of `nullify(key)`: `setItem(key, null)`. -/
def nullify (env : Env) (w : World) (s : Store) (key : JSValue) :
    Except Err (World × Store) :=
  setItem env w s key .null

/-- Model of `has(key)`: validate the key, then `getItem(key) !== null`. -/
def hasKey (env : Env) (w : World) (s : Store) (key : JSValue) :
    Except Err (Store × Bool) :=
  match key with
  | .str _ =>
    match getItem env w s key with
    | .ok (s1, v) => .ok (s1, !v.isNull)
    | .error e => .error e
  | _ => .error .keyNotString

/-- The numeric coercion `increment` applies to the current value:
`typeof currentValue === 'number' ? currentValue : 0`. -/
def numOrZero : JSValue → Int
  | .num n => n
  | _ => 0

/-- Model of `increment(key, amount)`: the amount must be a number (checked
before anything else); the new value is the numeric coercion of the
current value plus the amount, stored and returned. -/
def increment (env : Env) (w : World) (s : Store) (key amount : JSValue) :
    Except Err (World × Store × JSValue) :=
  match amount with
  | .num a =>
    match getItem env w s key with
    | .error e => .error e
    | .ok (s1, cur) =>
      let newValue := JSValue.num (numOrZero cur + a)
      match setItem env w s1 key newValue with
      | .error e => .error e
      | .ok (w2, s2) => .ok (w2, s2, newValue)
  | _ => .error .amountNotNumber

/-- Model of `decrement(key, amount)`, which is `increment(key, -amount)`.  The amount
parameter is modelled as an integer: for a non-numeric JS argument the
unary negation would coerce through `NaN`, which the integer value
model does not represent and no verified property mentions. -/
def decrement (env : Env) (w : World) (s : Store) (key : JSValue) (amount : Int) :
    Except Err (World × Store × JSValue) :=
  increment env w s key (.num (-amount))

/-- The per-entry mapper of `values()`: the marker decodes to
`undefined`; a JSON string parses back to its value; a string whose
parse fails is returned raw, as the string value itself (the `catch`
branch). -/
def decodeForValues (raw : StoredString) : JSValue :=
  if raw.asString = undefinedMarker then .undef
  else
    match raw with
    | .json v => v
    | .marker => .undef
    | .corrupt r => .str r

/-- Model of `values()`: initialize, then return all stored values.  Memory mode
returns the logical values directly.  IndexedDB mode decodes each
stored string, and a string whose parse fails is returned raw (as the
string value itself) instead of failing the call. -/
def values (env : Env) (w : World) (s0 : Store) :
    Except Err (Store × List JSValue) :=
  let s := _initializeGate env s0
  if s.useMemoryFallback then
    .ok (s, s.memoryStore.map (fun p => p.2))
  else
    match s.db with
    | none => .error .transactionFailure
    | some dbn =>
      .ok (s, (worldGet w dbn).map (fun p => decodeForValues p.2))

/-- What one synchronous entry into `_initializeGate` does from the
caller's point of view: return at once (already initialized), await an
existing promise, or create a fresh promise and start `_doInitialize`.
The `Nat` is the identity of the promise being awaited. -/
inductive InitCall where
  | immediate
  | awaitExisting (id : Nat)
  | startNew (id : Nat)
deriving Repr, DecidableEq

/-- The promise a call ends up awaiting, if any. -/
def InitCall.ident : InitCall → Option Nat
  | .immediate => none
  | .awaitExisting i => some i
  | .startNew i => some i

/-- The synchronous prefix of `_initializeGate`, executed atomically by the
single-threaded runtime (there is no suspension point between the
checks and the assignment of `this.initPromise`). -/
def initEnter (fresh : Nat) (s : Store) : Store × InitCall :=
  if s.isInitialized then (s, .immediate)
  else
    match s.initPromise with
    | some p => (s, .awaitExisting p)
    | none => ({ s with initPromise := some fresh }, .startNew fresh)

/-- An event inside one configuration epoch: a caller enters
`_initializeGate` (holding a fresh promise identity), or the pending
`_doInitialize` body completes under environment `env`. -/
inductive InitEvent where
  | enter (fresh : Nat)
  | complete (env : Env)

/-- Effect of one event on the store. -/
def initStep (s : Store) : InitEvent → Store × Option InitCall
  | .enter fresh =>
    match initEnter fresh s with
    | (s1, c) => (s1, some c)
  | .complete env => (_doInitialize env s, none)

/-- Run a sequence of interleaved init events, collecting what each
entering caller observed. -/
def runInit (s : Store) : List InitEvent → Store × List InitCall
  | [] => (s, [])
  | e :: rest =>
    match initStep s e with
    | (s1, c) =>
      match runInit s1 rest with
      | (s2, cs) =>
        (s2, match c with | some call => call :: cs | none => cs)

/-- Number of `_doInitialize` invocations a list of calls records. -/
def countStarts (cs : List InitCall) : Nat :=
  cs.countP (fun c => match c with | .startNew _ => true | _ => false)

/-- A store whose gate is settled: `_initializeGate` suspends nothing. -/
def initSettled (s : Store) : Prop :=
  s.isInitialized = true ∨ s.initPromise.isSome = true

/-- The JS test `typeof dbName === 'string'`. -/
def JSValue.isStr : JSValue → Bool
  | .str _ => true
  | _ => false

/-- Runtime without IndexedDB (e.g. no `window`): memory fallback. -/
def memEnv : Env := { indexedDBAvailable := false, openSucceeds := false }

/-- Runtime where IndexedDB is present and opens successfully. -/
def idbEnv : Env := { indexedDBAvailable := true, openSucceeds := true }

/-- Runtime where IndexedDB is present but opening it fails. -/
def failEnv : Env := { indexedDBAvailable := true, openSucceeds := false }

/-- The store after memory-fallback initialization of a fresh helper,
holding memory contents `m`. -/
def memStoreAfter (m : List (String × JSValue)) : Store :=
  { config := { dbName := "app-db" }
    db := none
    useMemoryFallback := true
    memoryStore := m
    isInitialized := true
    initPromise := some 0 }

/-- The store after successful IndexedDB initialization of a fresh
helper configured with the default name. -/
def idbStoreApp : Store :=
  { config := { dbName := "app-db" }
    db := some "app-db"
    useMemoryFallback := false
    memoryStore := []
    isInitialized := true
    initPromise := some 0 }

/-- A sample nested JSON-representable value. -/
def sampleValue : JSValue :=
  .obj [("name", .str "John"), ("age", .num 30), ("tags", .arr [.null, .str "x"])]

/-! ### Association-list lemmas -/

@[simp] lemma alGet_nil {α : Type} (k : String) : alGet ([] : List (String × α)) k = none := rfl

lemma alGet_alInsert_self {α : Type} (m : List (String × α)) (k : String) (v : α) :
    alGet (alInsert m k v) k = some v := by
  induction m with
  | nil => simp [alInsert, alGet]
  | cons p rest ih =>
    obtain ⟨k1, v1⟩ := p
    by_cases h : k1 = k <;> simp [alInsert, alGet, h, ih]

lemma alGet_alInsert_ne {α : Type} (m : List (String × α)) (k k1 : String) (v : α)
    (h : k1 ≠ k) : alGet (alInsert m k v) k1 = alGet m k1 := by
  have h1 : k ≠ k1 := fun he => h he.symm
  induction m with
  | nil => simp [alInsert, alGet, h1]
  | cons p rest ih =>
    obtain ⟨k2, v2⟩ := p
    by_cases h2 : k2 = k
    · subst h2
      simp [alInsert, alGet, h1]
    · simp [alInsert, alGet, h2, ih]

lemma alGet_alErase_self {α : Type} (m : List (String × α)) (k : String) :
    alGet (alErase m k) k = none := by
  induction m with
  | nil => simp [alErase, alGet]
  | cons p rest ih =>
    obtain ⟨k1, v1⟩ := p
    by_cases h : k1 = k <;> simp [alErase, alGet, h] at ih ⊢ <;> simpa [alErase] using ih

lemma worldGet_worldPut_self (w : World) (n k : String) (r : StoredString) :
    worldGet (worldPut w n k r) n = alInsert (worldGet w n) k r := by
  simp [worldGet, worldPut, alGet_alInsert_self]

lemma worldGet_worldDelete_self (w : World) (n k : String) :
    worldGet (worldDelete w n k) n = alErase (worldGet w n) k := by
  simp [worldGet, worldDelete, alGet_alInsert_self]

/-! ### The serializer never produces the bare undefined marker

`stringify` output always begins with one of `n`, `t`, `f`, a digit,
`-`, `"`, `[`, `{`, while the reserved marker begins with `_`. -/

lemma mk_cons_ne_marker {c : Char} (l : List Char) (hc : c ≠ '_') :
    String.mk (c :: l) ≠ undefinedMarker := by
  intro h
  have hd : (String.mk (c :: l)).data = undefinedMarker.data := by rw [h]
  have hm : undefinedMarker.data =
      '_' :: "_TINY_IDB_UNDEFINED__".data := rfl
  rw [hm] at hd
  exact hc (List.head_eq_of_cons_eq hd)

lemma natDigitsAux_digits (fuel : Nat) : ∀ n c, c ∈ natDigitsAux fuel n →
    48 ≤ c.toNat ∧ c.toNat ≤ 57 := by
  induction fuel with
  | zero => intro n c hc; simp [natDigitsAux] at hc
  | succ fuel ih =>
    intro n c hc
    rw [natDigitsAux] at hc
    by_cases h : n < 10
    · simp [h] at hc
      subst hc
      interval_cases n <;> decide
    · simp [h] at hc
      rcases hc with hc | hc
      · exact ih _ _ hc
      · subst hc
        have hlt : n % 10 < 10 := Nat.mod_lt _ (by norm_num)
        generalize n % 10 = m at hlt ⊢
        interval_cases m <;> decide

lemma natDigitsAux_ne_nil (fuel n : Nat) : natDigitsAux (fuel + 1) n ≠ [] := by
  rw [natDigitsAux]
  by_cases h : n < 10 <;> simp [h]

lemma natToString_ne_marker (n : Nat) : natToString n ≠ undefinedMarker := by
  have hne := natDigitsAux_ne_nil n n
  obtain ⟨c, l, hcl⟩ := List.exists_cons_of_ne_nil hne
  have hdig : 48 ≤ c.toNat ∧ c.toNat ≤ 57 :=
    natDigitsAux_digits (n + 1) n c (by rw [hcl]; exact List.mem_cons_self c l)
  rw [natToString, hcl]
  apply mk_cons_ne_marker
  intro hcu
  subst hcu
  revert hdig
  decide

lemma append_ne_marker (x y : String) (c : Char) (hx : x.data.head? = some c)
    (hc : c ≠ '_') : (x ++ y) ≠ undefinedMarker := by
  obtain ⟨l⟩ := x
  obtain ⟨l2⟩ := y
  cases l with
  | nil => simp at hx
  | cons a as =>
    simp at hx
    subst hx
    exact mk_cons_ne_marker (as ++ l2) hc

lemma head_lit_append (c : Char) (y : String) :
    (String.mk [c] ++ y).data.head? = some c := by
  obtain ⟨l⟩ := y
  rfl

/-- No possible output of the serializer is the bare reserved marker:
serialized values begin with `n`, `t`, `f`, a digit, `-`, `"`, `[` or
`{`, never with `_`.  This is what keeps the marker from colliding
with any legitimately encoded value. -/
theorem stringify_ne_marker {v : JSValue} {s : String}
    (h : stringify v = some s) : s ≠ undefinedMarker := by
  match v with
  | .undef => simp [stringify] at h
  | .null =>
    rw [stringify] at h
    cases h
    decide
  | .bool true =>
    rw [stringify] at h
    cases h
    decide
  | .bool false =>
    rw [stringify] at h
    cases h
    decide
  | .num n =>
    rw [stringify] at h
    cases h
    match n with
    | .ofNat m => exact natToString_ne_marker m
    | .negSucc m =>
      show (String.mk ['-'] ++ natToString (m + 1)) ≠ undefinedMarker
      exact append_ne_marker _ _ '-' (head_lit_append _ _) (by decide)
  | .str t =>
    rw [stringify] at h
    cases h
    rw [jsonQuote]
    show (String.mk ['"'] ++ _ ++ _) ≠ undefinedMarker
    exact append_ne_marker _ _ '"'
      (by rw [String.data_append]; rw [show (String.mk ['"']).data = ['"'] from rfl]; rfl)
      (by decide)
  | .arr elems =>
    rw [stringify] at h
    cases he : stringifyElems elems with
    | none => rw [he] at h; cases h
    | some parts =>
      rw [he] at h
      cases h
      show (String.mk ['['] ++ _ ++ _) ≠ undefinedMarker
      exact append_ne_marker _ _ '['
        (by rw [String.data_append]; rw [show (String.mk ['[']).data = ['['] from rfl]; rfl)
        (by decide)
  | .obj fields =>
    rw [stringify] at h
    cases he : stringifyFields fields with
    | none => rw [he] at h; cases h
    | some parts =>
      rw [he] at h
      cases h
      show (String.mk ['\x7b'] ++ _ ++ _) ≠ undefinedMarker
      exact append_ne_marker _ _ '\x7b'
        (by rw [String.data_append]; rw [show (String.mk ['\x7b']).data = ['\x7b'] from rfl]; rfl)
        (by decide)
  | .circular => simp [stringify] at h

lemma asString_json {v : JSValue} {s : String} (h : stringify v = some s) :
    (StoredString.json v).asString = s := by
  simp [StoredString.asString, h]

lemma asString_json_ne_marker {v : JSValue} {s : String} (h : stringify v = some s) :
    ((StoredString.json v).asString = undefinedMarker) = False := by
  simp [asString_json h]
  exact stringify_ne_marker h

/-! ### Initialization-gate lemmas -/

lemma doInitialize_isInitialized (env : Env) (s : Store) :
    (_doInitialize env s).isInitialized = true := by
  rw [_doInitialize]
  split
  · rfl
  · split <;> rfl

lemma doInitialize_initPromise (env : Env) (s : Store) :
    (_doInitialize env s).initPromise = s.initPromise := by
  rw [_doInitialize]
  split
  · rfl
  · split <;> rfl

lemma doInitialize_memoryStore (env : Env) (s : Store) :
    (_doInitialize env s).memoryStore = s.memoryStore := by
  rw [_doInitialize]
  split
  · rfl
  · split <;> rfl

lemma doInitialize_config (env : Env) (s : Store) :
    (_doInitialize env s).config = s.config := by
  rw [_doInitialize]
  split
  · rfl
  · split <;> rfl

lemma initialize_eq_of_settled {env : Env} {s : Store} (h : initSettled s) :
    _initializeGate env s = s := by
  rcases h with h | h
  · simp [_initializeGate, h]
  · by_cases h2 : s.isInitialized <;> simp [_initializeGate, h2, h]

lemma initSettled_initializeGate (env : Env) (s : Store) :
    initSettled (_initializeGate env s) := by
  rw [_initializeGate]
  split
  · exact Or.inl (by assumption)
  · split
    · exact Or.inr (by assumption)
    · exact Or.inl (doInitialize_isInitialized _ _)

lemma initSettled_memoryStore_update {s : Store} (m : List (String × JSValue))
    (h : initSettled s) : initSettled { s with memoryStore := m } := h

lemma initialize_idem (env : Env) (s : Store) :
    _initializeGate env (_initializeGate env s) = _initializeGate env s :=
  initialize_eq_of_settled (initSettled_initializeGate env s)

lemma isUndef_eq {v : JSValue} (h : v.isUndef = true) : v = .undef := by
  cases v <;> simp [JSValue.isUndef] at h ⊢

/-! ### Write–read round trip -/

/-- After a successful `setItem(k, v)`, `getItem(k)` returns exactly
`v`, on whichever backend is active.  The hypothesis restricts `v` to
logical values the write can accept: `undefined` or a serializable
value. -/
lemma set_get_roundtrip {env : Env} {w : World} {s0 : Store} {k : String} {v : JSValue}
    (hv : v.isUndef = true ∨ (stringify v).isSome = true)
    {w1 : World} {s1 : Store}
    (h : setItem env w s0 (.str k) v = .ok (w1, s1)) :
    getItem env w1 s1 (.str k) = .ok (s1, v) := by
  simp only [setItem] at h
  have hset := initSettled_initializeGate env s0
  generalize hs : _initializeGate env s0 = s at h hset
  by_cases hf : s.useMemoryFallback
  · rw [if_pos hf] at h
    have hok : Except.ok (ε := Err)
        (w, { s with memoryStore := alInsert s.memoryStore k v }) = .ok (w1, s1) := by
      by_cases hu : v.isUndef
      · rw [if_pos hu] at h
        exact h
      · rw [if_neg hu] at h
        rcases hv with hv | hv
        · exact absurd hv hu
        · obtain ⟨str, hst⟩ := Option.isSome_iff_exists.mp hv
          rw [hst] at h
          exact h
    injection hok with hok
    injection hok with hw hs1
    subst hw
    subst hs1
    have hst1 : initSettled { s with memoryStore := alInsert s.memoryStore k v } := hset
    simp only [getItem, initialize_eq_of_settled hst1]
    simp [hf, alGet_alInsert_self]
  · rw [if_neg hf] at h
    cases hdb : s.db with
    | none =>
      simp only [hdb] at h
      exact absurd h (by simp)
    | some dbn =>
      simp only [hdb] at h
      by_cases hu : v.isUndef
      · rw [if_pos hu] at h
        injection h with hok
        injection hok with hw hs1
        subst hw
        subst hs1
        simp only [getItem, initialize_eq_of_settled hset]
        rw [isUndef_eq hu]
        simp [hf, hdb, worldGet_worldPut_self, alGet_alInsert_self, StoredString.asString]
      · rw [if_neg hu] at h
        rcases hv with hv | hv
        · exact absurd hv hu
        · obtain ⟨str, hst⟩ := Option.isSome_iff_exists.mp hv
          rw [hst] at h
          injection h with hok
          injection hok with hw hs1
          subst hw
          subst hs1
          simp only [getItem, initialize_eq_of_settled hset]
          simp [hf, hdb, worldGet_worldPut_self, alGet_alInsert_self,
            asString_json_ne_marker hst]

/-- A successful `getItem` returns the store produced by the gate, and
that store has a usable backend. -/
lemma getItem_ok_state {env : Env} {w : World} {s0 : Store} {k : String}
    {s1 : Store} {v : JSValue} (h : getItem env w s0 (.str k) = .ok (s1, v)) :
    s1 = _initializeGate env s0 ∧
      (s1.useMemoryFallback = true ∨ ∃ dbn, s1.db = some dbn) := by
  simp only [getItem] at h
  generalize hs : _initializeGate env s0 = s at h ⊢
  by_cases hf : s.useMemoryFallback
  · rw [if_pos hf] at h
    cases hm : alGet s.memoryStore k with
    | none =>
      simp only [hm] at h
      injection h with h2
      injection h2 with h3 h4
      subst h3
      exact ⟨rfl, Or.inl hf⟩
    | some v0 =>
      simp only [hm] at h
      injection h with h2
      injection h2 with h3 h4
      subst h3
      exact ⟨rfl, Or.inl hf⟩
  · rw [if_neg hf] at h
    cases hdb : s.db with
    | none =>
      simp only [hdb] at h
      exact absurd h (by simp)
    | some dbn =>
      simp only [hdb] at h
      cases hm : alGet (worldGet w dbn) k with
      | none =>
        simp only [hm] at h
        injection h with h2
        injection h2 with h3 h4
        subst h3
        exact ⟨rfl, Or.inr ⟨dbn, hdb⟩⟩
      | some raw =>
        simp only [hm] at h
        by_cases hmar : raw.asString = undefinedMarker
        · rw [if_pos hmar] at h
          injection h with h2
          injection h2 with h3 h4
          subst h3
          exact ⟨rfl, Or.inr ⟨dbn, hdb⟩⟩
        · rw [if_neg hmar] at h
          cases raw with
          | marker => exact absurd h (by simp)
          | json v2 =>
            injection h with h2
            injection h2 with h3 h4
            subst h3
            exact ⟨rfl, Or.inr ⟨dbn, hdb⟩⟩
          | corrupt str => exact absurd h (by simp)

/-- On a settled store with a usable backend, writing any acceptable
value succeeds. -/
lemma setItem_ok (env : Env) (w : World) {s : Store} (k : String) {val : JSValue}
    (hval : val.isUndef = true ∨ (stringify val).isSome = true)
    (hst : initSettled s)
    (hb : s.useMemoryFallback = true ∨ ∃ dbn, s.db = some dbn) :
    ∃ w2 s2, setItem env w s (.str k) val = .ok (w2, s2) := by
  simp only [setItem, initialize_eq_of_settled hst]
  by_cases hf : s.useMemoryFallback
  · rw [if_pos hf]
    by_cases hu : val.isUndef
    · rw [if_pos hu]
      exact ⟨_, _, rfl⟩
    · rcases hval with hval | hval
      · exact absurd hval hu
      · obtain ⟨str, hstr⟩ := Option.isSome_iff_exists.mp hval
        rw [if_neg hu, hstr]
        exact ⟨_, _, rfl⟩
  · rcases hb with hb | ⟨dbn, hdb⟩
    · exact absurd hb hf
    · rw [if_neg hf]
      simp only [hdb]
      by_cases hu : val.isUndef
      · rw [if_pos hu]
        exact ⟨_, _, rfl⟩
      · rcases hval with hval | hval
        · exact absurd hval hu
        · obtain ⟨str, hstr⟩ := Option.isSome_iff_exists.mp hval
          rw [if_neg hu, hstr]
          exact ⟨_, _, rfl⟩

lemma hasKey_eq_getItem {env : Env} {w : World} {s : Store} {k : String}
    {s1 : Store} {v : JSValue} (h : getItem env w s (.str k) = .ok (s1, v)) :
    hasKey env w s (.str k) = .ok (s1, !v.isNull) := by
  simp only [hasKey, h]

/-- After a successful `removeItem(k)`, `getItem(k)` reports the key
absent (the `null` result), on whichever backend is active. -/
lemma remove_get {env : Env} {w : World} {s0 : Store} {k : String}
    {w1 : World} {s1 : Store}
    (h : removeItem env w s0 (.str k) = .ok (w1, s1)) :
    getItem env w1 s1 (.str k) = .ok (s1, .null) := by
  simp only [removeItem] at h
  have hset := initSettled_initializeGate env s0
  generalize hs : _initializeGate env s0 = s at h hset
  by_cases hf : s.useMemoryFallback
  · rw [if_pos hf] at h
    injection h with h2
    injection h2 with hw hs1
    subst hw
    subst hs1
    have hst1 : initSettled { s with memoryStore := alErase s.memoryStore k } := hset
    simp only [getItem, initialize_eq_of_settled hst1]
    simp [hf, alGet_alErase_self]
  · rw [if_neg hf] at h
    cases hdb : s.db with
    | none =>
      simp only [hdb] at h
      exact absurd h (by simp)
    | some dbn =>
      simp only [hdb] at h
      injection h with h2
      injection h2 with hw hs1
      subst hw
      subst hs1
      simp only [getItem, initialize_eq_of_settled hset]
      simp [hf, hdb, worldGet_worldDelete_self, alGet_alErase_self]

/-- Running `increment` after a successful read: the new value is the numeric
coercion of the current value plus the amount; it is stored and
returned, and a subsequent read yields it. -/
lemma increment_eq {env : Env} {w : World} {s : Store} {k : String} (a : Int)
    {s1 : Store} {cur : JSValue}
    (hget : getItem env w s (.str k) = .ok (s1, cur)) :
    ∃ w2 s2,
      increment env w s (.str k) (.num a) = .ok (w2, s2, .num (numOrZero cur + a)) ∧
        getItem env w2 s2 (.str k) = .ok (s2, .num (numOrZero cur + a)) := by
  obtain ⟨hs1, hb⟩ := getItem_ok_state hget
  have hst : initSettled s1 := by rw [hs1]; exact initSettled_initializeGate env s
  have hser : (JSValue.num (numOrZero cur + a)).isUndef = true ∨
      (stringify (JSValue.num (numOrZero cur + a))).isSome = true :=
    Or.inr (by simp [stringify])
  obtain ⟨w2, s2, hsetok⟩ := setItem_ok env w k hser hst hb
  refine ⟨w2, s2, ?_, set_get_roundtrip hser hsetok⟩
  simp only [increment, hget, hsetok]

/-- On a freshly reset store, a key that is absent from the configured
database (and necessarily from the empty memory map) reads as the
`null` "not found" result, whichever backend initialization selects. -/
lemma getItem_fresh_absent (env : Env) (w : World) (cfg : Config) (k : String)
    (hw : alGet (worldGet w cfg.dbName) k = none) :
    getItem env w (freshStore cfg) (.str k) =
      .ok (_initializeGate env (freshStore cfg), .null) := by
  obtain ⟨avail, openS⟩ := env
  cases avail <;> cases openS <;>
    simp [getItem, _initializeGate, _doInitialize, freshStore, hw]

/-! ### Trace lemmas for the initialization gate -/

lemma initEnter_initialized {s : Store} (fresh : Nat) (h : s.isInitialized = true) :
    initEnter fresh s = (s, .immediate) := by
  simp [initEnter, h]

lemma runInit_cons (s : Store) (e : InitEvent) (rest : List InitEvent) :
    runInit s (e :: rest) =
      ((runInit (initStep s e).1 rest).1,
        match (initStep s e).2 with
        | some c => c :: (runInit (initStep s e).1 rest).2
        | none => (runInit (initStep s e).1 rest).2) := by
  rcases h1 : initStep s e with ⟨s1, c⟩
  simp only [runInit, h1]

lemma initStep_promise_some {s : Store} {p : Nat} (h : s.initPromise = some p)
    (e : InitEvent) : (initStep s e).1.initPromise = some p := by
  cases e with
  | enter fresh =>
    simp only [initStep, initEnter]
    by_cases hi : s.isInitialized <;> simp [hi, h]
  | complete env => simp [initStep, doInitialize_initPromise, h]

lemma initStep_call_some {s : Store} {p : Nat} (h : s.initPromise = some p)
    (e : InitEvent) : ∀ c, (initStep s e).2 = some c →
      c = .immediate ∨ c = .awaitExisting p := by
  intro c hc
  cases e with
  | enter fresh =>
    simp only [initStep, initEnter] at hc
    by_cases hi : s.isInitialized
    · simp [hi] at hc
      exact Or.inl hc.symm
    · simp [hi, h] at hc
      exact Or.inr hc.symm
  | complete env => simp [initStep] at hc

/-- Once the init promise exists, later events never start another
`_doInitialize`, and every caller awaits that same promise. -/
lemma runInit_promise_some {p : Nat} :
    ∀ (evs : List InitEvent) (s : Store), s.initPromise = some p →
      countStarts (runInit s evs).2 = 0 ∧
      ∀ c ∈ (runInit s evs).2, c = .immediate ∨ c = .awaitExisting p := by
  intro evs
  induction evs with
  | nil =>
    intro s h
    simp [runInit, countStarts]
  | cons e rest ih =>
    intro s h
    obtain ⟨ih1, ih2⟩ := ih (initStep s e).1 (initStep_promise_some h e)
    rw [runInit_cons]
    cases hc : (initStep s e).2 with
    | none => exact ⟨ih1, by simpa using ih2⟩
    | some c =>
      rcases initStep_call_some h e c hc with hcc | hcc <;> subst hcc
      · constructor
        · simpa [countStarts, List.countP_cons] using ih1
        · intro c2 hc2
          simp at hc2
          rcases hc2 with hc2 | hc2
          · exact Or.inl hc2
          · exact ih2 c2 hc2
      · constructor
        · simpa [countStarts, List.countP_cons] using ih1
        · intro c2 hc2
          simp at hc2
          rcases hc2 with hc2 | hc2
          · exact Or.inr hc2
          · exact ih2 c2 hc2

/-- From a state with no init promise (the epoch start), any
interleaving of entries and completions starts `_doInitialize` at most
once, and all awaiting callers await one single promise. -/
lemma runInit_from_none :
    ∀ (evs : List InitEvent) (s : Store), s.initPromise = none →
      countStarts (runInit s evs).2 ≤ 1 ∧
      ∀ c1 ∈ (runInit s evs).2, ∀ c2 ∈ (runInit s evs).2,
        ∀ i1 i2, c1.ident = some i1 → c2.ident = some i2 → i1 = i2 := by
  intro evs
  induction evs with
  | nil =>
    intro s h
    simp [runInit, countStarts]
  | cons e rest ih =>
    intro s h
    rw [runInit_cons]
    cases e with
    | complete env =>
      have hp : (initStep s (.complete env)).1.initPromise = none := by
        simpa [initStep, doInitialize_initPromise] using h
      obtain ⟨ih1, ih2⟩ := ih _ hp
      simpa [initStep] using ⟨ih1, ih2⟩
    | enter fresh =>
      by_cases hi : s.isInitialized
      · have hstep : initStep s (.enter fresh) = (s, some .immediate) := by
          simp [initStep, initEnter_initialized fresh hi]
        rw [hstep]
        obtain ⟨ih1, ih2⟩ := ih s h
        constructor
        · simpa [countStarts, List.countP_cons, InitCall.ident] using ih1
        · intro c1 hc1 c2 hc2 i1 i2 hi1 hi2
          simp at hc1 hc2
          rcases hc1 with hc1 | hc1
          · subst hc1
            simp [InitCall.ident] at hi1
          · rcases hc2 with hc2 | hc2
            · subst hc2
              simp [InitCall.ident] at hi2
            · exact ih2 c1 hc1 c2 hc2 i1 i2 hi1 hi2
      · have hstep : initStep s (.enter fresh) =
            ({ s with initPromise := some fresh }, some (.startNew fresh)) := by
          simp [initStep, initEnter, hi, h]
        rw [hstep]
        obtain ⟨h0, hall⟩ := runInit_promise_some rest
            { s with initPromise := some fresh } rfl
        constructor
        · simp [countStarts, List.countP_cons]
          simpa [countStarts] using Nat.le_of_eq h0
        · intro c1 hc1 c2 hc2 i1 i2 hi1 hi2
          have hone : ∀ c ∈ (runInit { s with initPromise := some fresh } rest).2,
              ∀ i, c.ident = some i → i = fresh := by
            intro c hc i hci
            rcases hall c hc with hcc | hcc <;> subst hcc <;>
              simp [InitCall.ident] at hci
            exact hci.symm
          simp at hc1 hc2
          rcases hc1 with hc1 | hc1 <;> rcases hc2 with hc2 | hc2
          · subst hc1; subst hc2
            simp [InitCall.ident] at hi1 hi2
            omega
          · subst hc1
            simp [InitCall.ident] at hi1
            have := hone c2 hc2 i2 hi2
            omega
          · subst hc2
            simp [InitCall.ident] at hi2
            have := hone c1 hc1 i1 hi1
            omega
          · have h1 := hone c1 hc1 i1 hi1
            have h2 := hone c2 hc2 i2 hi2
            omega

/-! ### Claim theorems -/

/-- C1, counterexample.  The claim says `has(k)` is `true` immediately
after `set(k, null)`.  In the code `has` is `getItem(k) !== null`, and
`getItem` returns `null` for a key holding `null`; so after
`set("k", null)` on a fresh memory-fallback store, `has("k")` is
`false`, not `true`. -/
theorem C1_counterexample :
    (do
      let ws1 ← setItem memEnv [] initialStore (.str "k") .null
      let sb ← hasKey memEnv ws1.1 ws1.2 (.str "k")
      pure sb.2 : Except Err Bool) = .ok false := by rfl

/-- C1, amended: `has(k)` returns `getItem(k) !== null`, so it is
`true` iff `get` returns a non-`null` result.  Since the "not found"
result IS `null`, a key holding logical `null` does NOT count as
present: `has(k)` is `false` immediately after `set(k, null)`, and
`false` after `remove(k)`. -/
theorem C1_has_semantics (env : Env) (w : World) (s : Store) (k : String) :
    (∀ s1 v, getItem env w s (.str k) = .ok (s1, v) →
        hasKey env w s (.str k) = .ok (s1, !v.isNull)) ∧
    (∀ w1 s1, setItem env w s (.str k) .null = .ok (w1, s1) →
        hasKey env w1 s1 (.str k) = .ok (s1, false)) ∧
    (∀ w1 s1, removeItem env w s (.str k) = .ok (w1, s1) →
        hasKey env w1 s1 (.str k) = .ok (s1, false)) := by
  refine ⟨fun s1 v h => hasKey_eq_getItem h, fun w1 s1 h => ?_, fun w1 s1 h => ?_⟩
  · have hg := set_get_roundtrip (Or.inr (by simp [stringify])) h
    simpa [JSValue.isNull] using hasKey_eq_getItem hg
  · simpa [JSValue.isNull] using hasKey_eq_getItem (remove_get h)

/-- C1 witness: the amended semantics at a concrete input. -/
theorem C1_has_semantics_witness :
    hasKey memEnv [] (memStoreAfter [("k", .null)]) (.str "k") =
      .ok (memStoreAfter [("k", .null)], false) :=
  (C1_has_semantics memEnv [] initialStore "k").2.1 [] (memStoreAfter [("k", .null)])
    (by rfl)

/-- C2: for every acceptable logical value (`undefined` or any value
`JSON.stringify` accepts), `set(k, v)` followed by `get(k)` returns a
value equal to `v`, whichever backend the environment selects (the
memory backend stores the value itself; the IndexedDB backend stores
its encoding and decodes it back). -/
theorem C2_roundtrip (env : Env) (w : World) (s : Store) (k : String) (v : JSValue)
    (hv : v.isUndef = true ∨ (stringify v).isSome = true)
    (w1 : World) (s1 : Store)
    (h : setItem env w s (.str k) v = .ok (w1, s1)) :
    getItem env w1 s1 (.str k) = .ok (s1, v) :=
  set_get_roundtrip hv h

/-- C2 witness: a nested object round-trips through the IndexedDB
backend. -/
theorem C2_roundtrip_witness :
    getItem idbEnv [("app-db", [("k", .json sampleValue)])] idbStoreApp (.str "k") =
      .ok (idbStoreApp, sampleValue) :=
  C2_roundtrip idbEnv [] initialStore "k" sampleValue (Or.inr (by rfl))
    [("app-db", [("k", .json sampleValue)])] idbStoreApp (by rfl)

/-- C3, counterexample.  The claim says the "not found" result is
distinguishable from the result for a key explicitly set to `null`.
In the code both are the JS value `null`: `get("k")` on a never-set key
and `get("k")` after `set("k", null)` return identical results. -/
theorem C3_counterexample :
    (do
      let sv ← getItem memEnv [] initialStore (.str "k")
      pure sv.2 : Except Err JSValue) = .ok .null ∧
    (do
      let ws1 ← setItem memEnv [] initialStore (.str "k") .null
      let sv ← getItem memEnv ws1.1 ws1.2 (.str "k")
      pure sv.2 : Except Err JSValue) = .ok .null :=
  ⟨by rfl, by rfl⟩

/-- C3, amended: `get` on a never-set key returns the `null` "not
found" result; that result is distinguishable from a key explicitly
set to `undefined` (which reads back as `undefined`), but NOT from a
key explicitly set to `null` (which also reads back as `null`). -/
theorem C3_absence (env : Env) (w : World) (cfg : Config) (k : String)
    (hw : alGet (worldGet w cfg.dbName) k = none) :
    (getItem env w (freshStore cfg) (.str k) =
        .ok (_initializeGate env (freshStore cfg), .null)) ∧
    (∀ w1 s1, setItem env w (freshStore cfg) (.str k) .undef = .ok (w1, s1) →
        getItem env w1 s1 (.str k) = .ok (s1, .undef)) ∧
    (∀ w1 s1, setItem env w (freshStore cfg) (.str k) .null = .ok (w1, s1) →
        getItem env w1 s1 (.str k) = .ok (s1, .null)) := by
  refine ⟨getItem_fresh_absent env w cfg k hw, fun w1 s1 h => ?_, fun w1 s1 h => ?_⟩
  · exact set_get_roundtrip (Or.inl (by rfl)) h
  · exact set_get_roundtrip (Or.inr (by simp [stringify])) h

/-- C3 witness: the amended semantics at a concrete input. -/
theorem C3_absence_witness :
    getItem memEnv [] (freshStore { dbName := "app-db" }) (.str "k") =
      .ok (_initializeGate memEnv (freshStore { dbName := "app-db" }), .null) :=
  (C3_absence memEnv [] { dbName := "app-db" } "k" (by rfl)).1

/-- C4: within one configuration epoch, modelled as an event trace with
no intervening `configure`: (1) from any state with no pending init
promise (process start, or right after `configure` — see clause 4),
at most one `_doInitialize` is ever started, however many callers enter
concurrently; (2) all callers that suspend await one single shared
promise; (3) once a promise exists, no further attempt starts and all
later callers await exactly that promise (sharing its outcome);
(4) once initialized, the gate returns immediately with the state
unchanged; (5) `configure` and construction yield exactly the
promise-free uninitialized state the other clauses start from. -/
theorem C4_init_once (s : Store) (evs : List InitEvent) :
    (s.initPromise = none →
      countStarts (runInit s evs).2 ≤ 1 ∧
      ∀ c1 ∈ (runInit s evs).2, ∀ c2 ∈ (runInit s evs).2,
        ∀ i1 i2, c1.ident = some i1 → c2.ident = some i2 → i1 = i2) ∧
    (∀ p, s.initPromise = some p →
      countStarts (runInit s evs).2 = 0 ∧
      ∀ c ∈ (runInit s evs).2, c = .immediate ∨ c = .awaitExisting p) ∧
    (∀ fresh, s.isInitialized = true → initEnter fresh s = (s, .immediate)) ∧
    (∀ n s2, configure s (.str n) = .ok s2 →
      s2.initPromise = none ∧ s2.isInitialized = false) ∧
    (initialStore.initPromise = none ∧ initialStore.isInitialized = false) := by
  refine ⟨fun h => runInit_from_none evs s h,
    fun p h => runInit_promise_some evs s h,
    fun fresh h => initEnter_initialized fresh h,
    fun n s2 h => ?_, by constructor <;> rfl⟩
  injection h with h2
  subst h2
  constructor <;> rfl

/-- C4 witness: three concurrent entries around a completion, from a
fresh store, record exactly one `_doInitialize` start. -/
theorem C4_init_once_witness :
    countStarts (runInit initialStore
      [.enter 0, .enter 1, .complete idbEnv, .enter 2]).2 ≤ 1 :=
  ((C4_init_once initialStore [.enter 0, .enter 1, .complete idbEnv, .enter 2]).1
    (by rfl)).1

lemma doInitialize_fallback {env : Env} (s : Store)
    (henv : env.indexedDBAvailable = false ∨ env.openSucceeds = false) :
    _doInitialize env s = { s with useMemoryFallback := true, isInitialized := true } := by
  rcases henv with h | h
  · simp [_doInitialize, h]
  · by_cases ha : env.indexedDBAvailable = true <;> simp [_doInitialize, ha, h]

lemma setItem_initializeGate_shift (env : Env) (w : World) (s0 : Store) (key v : JSValue) :
    setItem env w (_initializeGate env s0) key v = setItem env w s0 key v := by
  cases key <;> simp only [setItem, initialize_idem]

/-- C5: when IndexedDB is absent, or present but failing to open,
`_doInitialize` completes normally (it is a total function into
`Store`: the `catch` swallows the open failure, so no error can reach a
caller) with the volatile backend active and the gate marked
initialized; and on a store initialized under such an environment,
subsequent data operations succeed against the volatile backend. -/
theorem C5_silent_fallback (env : Env) (w : World) (s : Store) (cfg : Config)
    (k : String) (v : JSValue)
    (henv : env.indexedDBAvailable = false ∨ env.openSucceeds = false) :
    (_doInitialize env s = { s with useMemoryFallback := true, isInitialized := true }) ∧
    ((_initializeGate env (freshStore cfg)).useMemoryFallback = true ∧
      (_initializeGate env (freshStore cfg)).isInitialized = true) ∧
    (v.isUndef = true ∨ (stringify v).isSome = true →
      ∃ w1 s1, setItem env w (freshStore cfg) (.str k) v = .ok (w1, s1) ∧
        getItem env w1 s1 (.str k) = .ok (s1, v)) := by
  have hinit : _initializeGate env (freshStore cfg) =
      { config := cfg, db := none, useMemoryFallback := true,
        memoryStore := [], isInitialized := true, initPromise := some 0 } := by
    rw [_initializeGate, if_neg (by simp [freshStore]), if_neg (by simp [freshStore]),
      doInitialize_fallback _ henv]
    rfl
  refine ⟨doInitialize_fallback s henv, ⟨by rw [hinit], by rw [hinit]⟩, fun hv => ?_⟩
  have hst : initSettled (_initializeGate env (freshStore cfg)) :=
    initSettled_initializeGate env (freshStore cfg)
  have hb : (_initializeGate env (freshStore cfg)).useMemoryFallback = true ∨
      ∃ dbn, (_initializeGate env (freshStore cfg)).db = some dbn :=
    Or.inl (by rw [hinit])
  obtain ⟨w1, s1, hok⟩ := setItem_ok env w k hv hst hb
  rw [setItem_initializeGate_shift] at hok
  exact ⟨w1, s1, hok, set_get_roundtrip hv hok⟩

/-- C5 witness: with IndexedDB present but failing to open, a write
and read-back on the fallen-back store both succeed. -/
theorem C5_silent_fallback_witness :
    ∃ w1 s1,
      setItem failEnv [] (freshStore { dbName := "app-db" }) (.str "k") (.num 7) =
        .ok (w1, s1) ∧
      getItem failEnv w1 s1 (.str "k") = .ok (s1, .num 7) :=
  (C5_silent_fallback failEnv [] initialStore { dbName := "app-db" } "k" (.num 7)
    (Or.inr rfl)).2.2 (Or.inr (by rfl))

/-- C6: writing a value JSON cannot represent (one on which
`JSON.stringify` throws, e.g. a circular structure — in this model
exactly the values with `stringify v = none`, apart from top-level
`undefined` which is never serialized) fails with the serialization
error code `JSON_PARSE_ERROR` on either backend, identically: the same
code is produced whether the active backend is the volatile map or an
open IndexedDB handle.  The failure happens before any write: the
error branch precedes `alInsert`/`worldPut` in the definition, and the
error return carries no updated world or store, so the caller's state
— the key's previous value or its absence — is untouched. -/
theorem C6_circular_set_fails (env : Env) (w : World) (s : Store) (k : String)
    (v : JSValue) (hu : v.isUndef = false) (hser : stringify v = none)
    (hb : (_initializeGate env s).useMemoryFallback = true ∨
      ∃ dbn, (_initializeGate env s).db = some dbn) :
    setItem env w s (.str k) v = .error .jsonParseError := by
  simp only [setItem]
  generalize hs : _initializeGate env s = s1 at hb
  by_cases hf : s1.useMemoryFallback
  · simp [hf, hu, hser]
  · rcases hb with hb | ⟨dbn, hdb⟩
    · exact absurd hb hf
    · simp [hf, hdb, hu, hser]

/-- C6 witness: a circular value is rejected on the memory backend. -/
theorem C6_circular_set_fails_witness :
    setItem memEnv [] initialStore (.str "k") .circular = .error .jsonParseError :=
  C6_circular_set_fails memEnv [] initialStore "k" .circular (by rfl) (by rfl)
    (Or.inl (by rfl))

/-- C7: `increment(key, amount)` requires a numeric amount (failing
with the invalid-argument error before anything else, even before the
key is validated); it coerces the current value to `0` when the key is
absent (the `null` read) or holds a non-number, stores and returns
current + amount; `decrement(key, a)` is definitionally
`increment(key, -a)`; increment on an absent key yields `1`; and
increment by 5 then decrement by 2 on an absent key yields `3`. -/
theorem C7_increment_decrement (env : Env) (w : World) (s : Store) (k : String) :
    (∀ key amt, amt.isNum = false →
      increment env w s key amt = .error .amountNotNumber) ∧
    (∀ key amt, decrement env w s key amt = increment env w s key (.num (-amt))) ∧
    (∀ a s1 cur, getItem env w s (.str k) = .ok (s1, cur) →
      ∃ w2 s2,
        increment env w s (.str k) (.num a) = .ok (w2, s2, .num (numOrZero cur + a)) ∧
        getItem env w2 s2 (.str k) = .ok (s2, .num (numOrZero cur + a))) ∧
    (∀ s1, getItem env w s (.str k) = .ok (s1, .null) →
      ∃ w2 s2, increment env w s (.str k) (.num 1) = .ok (w2, s2, .num 1)) ∧
    (∀ s1, getItem env w s (.str k) = .ok (s1, .null) →
      ∃ w2 s2 w3 s3,
        increment env w s (.str k) (.num 5) = .ok (w2, s2, .num 5) ∧
        decrement env w2 s2 (.str k) 2 = .ok (w3, s3, .num 3)) := by
  refine ⟨?_, fun key amt => rfl, fun a s1 cur hget => increment_eq a hget, ?_, ?_⟩
  · intro key amt hamt
    cases amt <;> simp [increment, JSValue.isNum] at hamt ⊢
  · intro s1 hget
    obtain ⟨w2, s2, h1, _⟩ := increment_eq 1 hget
    exact ⟨w2, s2, by simpa [numOrZero] using h1⟩
  · intro s1 hget
    obtain ⟨w2, s2, h1, h2⟩ := increment_eq 5 hget
    obtain ⟨w3, s3, h3, _⟩ := increment_eq (-2) h2
    refine ⟨w2, s2, w3, s3, by simpa [numOrZero] using h1, ?_⟩
    rw [decrement]
    simpa [numOrZero] using h3

/-- C7 witness: the concrete example of the claim, on the memory
backend: increment by 5 then decrement by 2 from an absent key. -/
theorem C7_increment_decrement_witness :
    ∃ w2 s2 w3 s3,
      increment memEnv [] initialStore (.str "c") (.num 5) = .ok (w2, s2, .num 5) ∧
      decrement memEnv w2 s2 (.str "c") 2 = .ok (w3, s3, .num 3) :=
  (C7_increment_decrement memEnv [] initialStore "c").2.2.2.2 (memStoreAfter [])
    (by rfl)

/-- C8: `configure` validates that the (destructured) store name is a
string, failing with the invalid-configuration error otherwise, and on
success resets every piece of cached state — handle closed and
dropped, volatile mapping cleared, initialized flag and in-flight init
token reset.  After reconfiguring to a namespace in which a key is
absent (in particular any fresh `dbName`, whose database is empty),
that key resolves as absent — the `null` "not found" result —
whichever backend the next initialization selects. -/
theorem C8_configure (s : Store) :
    (∀ dbName, dbName.isStr = false →
      configure s dbName = .error .invalidConfiguration) ∧
    (∀ n, configure s (.str n) = .ok (freshStore { dbName := n })) ∧
    (∀ n s2, configure s (.str n) = .ok s2 →
      s2.db = none ∧ s2.useMemoryFallback = false ∧ s2.memoryStore = [] ∧
        s2.isInitialized = false ∧ s2.initPromise = none) ∧
    (∀ env w n k s2, configure s (.str n) = .ok s2 →
      alGet (worldGet w n) k = none →
      getItem env w s2 (.str k) = .ok (_initializeGate env s2, .null)) := by
  refine ⟨?_, fun n => rfl, ?_, ?_⟩
  · intro dbName h
    cases dbName <;> first
      | rfl
      | exact absurd h (by simp [JSValue.isStr])
  · intro n s2 h
    injection h with h2
    subst h2
    exact ⟨rfl, rfl, rfl, rfl, rfl⟩
  · intro env w n k s2 h hw
    injection h with h2
    subst h2
    exact getItem_fresh_absent env w { dbName := n } k hw

/-- C8 witness: a key written under `app-db` is absent after
reconfiguring to the fresh namespace `new-db`. -/
theorem C8_configure_witness :
    getItem idbEnv [("app-db", [("old", .json (.num 1))])]
      (freshStore { dbName := "new-db" }) (.str "old") =
      .ok (_initializeGate idbEnv (freshStore { dbName := "new-db" }), .null) :=
  (C8_configure initialStore).2.2.2 idbEnv [("app-db", [("old", .json (.num 1))])]
    "new-db" "old" (freshStore { dbName := "new-db" }) (by rfl) (by rfl)

/-- C9: `values()` returns one decoded value per stored key.  On the
memory backend these are the stored logical values themselves.  On the
IndexedDB backend every stored string is decoded, and an entry whose
decode fails (`corrupt`, i.e. `JSON.parse` throws) contributes its raw
undecoded string to the result instead of failing the call — in
contrast to `getItem`, which rejects with `JSON_PARSE_ERROR` on the
same entry. -/
theorem C9_values_degradation (env : Env) (w : World) (s : Store) (dbn : String) :
    (s.useMemoryFallback = true → initSettled s →
      values env w s = .ok (s, s.memoryStore.map (fun p => p.2))) ∧
    (initSettled s → s.useMemoryFallback = false → s.db = some dbn →
      (∃ l, values env w s = .ok (s, l) ∧
        l.length = (worldGet w dbn).length ∧
        ∀ k raw, (k, StoredString.corrupt raw) ∈ worldGet w dbn →
          raw ≠ undefinedMarker → JSValue.str raw ∈ l) ∧
      (∀ k raw, alGet (worldGet w dbn) k = some (.corrupt raw) →
        raw ≠ undefinedMarker →
        getItem env w s (.str k) = .error .jsonParseError)) := by
  constructor
  · intro hf hst
    simp only [values, initialize_eq_of_settled hst]
    rw [if_pos hf]
  · intro hst hf hdb
    constructor
    · refine ⟨(worldGet w dbn).map (fun p => decodeForValues p.2), ?_,
        List.length_map _ _, ?_⟩
      · simp [values, initialize_eq_of_settled hst, hf, hdb]
      · intro k raw hmem hraw
        simpa [decodeForValues, StoredString.asString, hraw] using
          List.mem_map_of_mem (fun p => decodeForValues p.2) hmem
    · intro k raw hget hraw
      simp only [getItem, initialize_eq_of_settled hst]
      simp [hf, hdb, hget, StoredString.asString, hraw]

/-- C9 witness: on a database holding one good and one corrupt entry,
`getItem` of the corrupt key rejects with the parse error (while the
theorem's other half shows `values()` still succeeds). -/
theorem C9_values_degradation_witness :
    getItem idbEnv [("app-db", [("good", .json (.num 1)), ("bad", .corrupt "oops")])]
      idbStoreApp (.str "bad") = .error .jsonParseError :=
  ((C9_values_degradation idbEnv
      [("app-db", [("good", .json (.num 1)), ("bad", .corrupt "oops")])]
      idbStoreApp "app-db").2 (Or.inl rfl) rfl rfl).2 "bad" "oops" (by rfl) (by decide)

/-- C10: storing the literal marker string as a value does not collide
with the reserved `undefined` marker: `set(k, "__TINY_IDB_UNDEFINED__")`
followed by `get(k)` returns that same string, not `undefined`, because
the encoder JSON-serializes strings with surrounding quotes — indeed no
serializer output whatsoever equals the bare marker. -/
theorem C10_marker_no_collision (env : Env) (w : World) (s : Store) (k : String) :
    (∀ w1 s1, setItem env w s (.str k) (.str undefinedMarker) = .ok (w1, s1) →
      getItem env w1 s1 (.str k) = .ok (s1, .str undefinedMarker)) ∧
    (∀ t, stringify (.str t) = some (jsonQuote t)) ∧
    (∀ v enc, stringify v = some enc → enc ≠ undefinedMarker) :=
  ⟨fun _ _ h => set_get_roundtrip (Or.inr (by rfl)) h,
    fun _ => rfl, fun _ _ h => stringify_ne_marker h⟩

/-- C10 witness: the marker string round-trips through the IndexedDB
backend. -/
theorem C10_marker_no_collision_witness :
    getItem idbEnv [("app-db", [("k", .json (.str undefinedMarker))])] idbStoreApp
      (.str "k") = .ok (idbStoreApp, .str undefinedMarker) :=
  (C10_marker_no_collision idbEnv [] initialStore "k").1
    [("app-db", [("k", .json (.str undefinedMarker))])] idbStoreApp (by rfl)

end TinyIDB

